import Mathlib

/-!
# A shallow embedding of the gnomonicus reduction pipeline

This file embeds the core of `gnomonicus/gnomonicus_lib.py` — the
variant → mutation → effect reduction pipeline of the gnomonicus
resistance-prediction tool — and proves theorems about the embedded
functions.

Modelling conventions:
* Python strings are `String`, nullable values are `Option`,
  read fractions / read counts (Python floats) are `Rat`,
  fallible code returns `Except String`.
* Pandas dataframes appear as lists of per-row structures; parallel
  column lists built by repeated `append` are built as one row per
  iteration.
* External gumpy/piezo objects (genomes, gene differences, the VCF
  `_simplify_call` helper, `get_gene_pos`) are modelled as data or as
  abstract function fields of an environment structure, mirroring the
  read-only contract the source code uses them under.
-/

/-- Model of Python `str.split(sep)` for a one-character separator,
acting on the character list.  `"".split(sep) == [""]` and the result is
never empty, as in Python. -/
def splitListChar (sep : Char) : List Char → List (List Char)
  | [] => [[]]
  | c :: rest =>
    let r := splitListChar sep rest
    if c = sep then [] :: r
    else (c :: r.headD []) :: r.tail

/-- Python `s.split(sep)` for a one-character separator. -/
def splitOnChar (sep : Char) (s : String) : List String :=
  (splitListChar sep s.data).map (fun cs => String.mk cs)

/-- Python `c in s` for a character (membership in the string). -/
def strContains (s : String) (c : Char) : Bool := s.data.contains c

/-- Python `s[n:]`. -/
def strDrop (s : String) (n : Nat) : String := String.mk (s.data.drop n)

/-- Python `s[:-n]`. -/
def strDropRight (s : String) (n : Nat) : String :=
  String.mk (s.data.take (s.data.length - n))

/-- Python `s[-n:]` (for `0 < n ≤ len(s)`). -/
def strTakeRight (s : String) (n : Nat) : String :=
  String.mk (s.data.drop (s.data.length - n))

/-- Accumulate a decimal digit string into a number. -/
def digitsVal : List Char → Nat → Nat
  | [], acc => acc
  | c :: cs, acc => digitsVal cs (acc * 10 + (c.toNat - '0'.toNat))

/-- Python `int(s)` for an unsigned decimal string (`None` models the
`ValueError` on malformed input). -/
def strToNat? (s : String) : Option Nat :=
  if s.data ≠ [] ∧ s.data.all Char.isDigit then some (digitsVal s.data 0) else none

/-- Python `int(s)` for an optionally-signed decimal string. -/
def strToInt? (s : String) : Option Int :=
  match s.data with
  | '-' :: cs =>
    if cs ≠ [] ∧ cs.all Char.isDigit then some (-(digitsVal cs 0 : Int)) else none
  | _ => (strToNat? s).map (fun n => (n : Int))

/-- Python `float(s)` on the decimal evidence strings that occur in
minor-population calls (for example `"0.045"` or `"13"`). -/
def parseEv (s : String) : Rat :=
  match splitOnChar '.' s with
  | [a] => (((strToInt? a).getD 0 : Int) : Rat)
  | [a, b] =>
    (((strToInt? a).getD 0 : Int) : Rat)
      + (((strToNat? b).getD 0 : Nat) : Rat) / (10 : Rat) ^ b.length
  | _ => 0

/-- Python `round(x, 3)` on the rational model of a float. -/
def round3 (q : Rat) : Rat := ((⌊q * 1000 + 1 / 2⌋ : Int) : Rat) / 1000

/-- Insert a string into a sorted list (ascending `compare`). -/
def insertSorted (x : String) : List String → List String
  | [] => [x]
  | y :: ys => if compare x y = Ordering.gt then y :: insertSorted x ys else x :: y :: ys

/-- Python `sorted` on a list of strings (insertion sort). -/
def sortStrings : List String → List String
  | [] => []
  | x :: xs => insertSorted x (sortStrings xs)

/-! ## Effect aggregation (`populateEffects`, lines 850-948, and
`saveJSON`, lines 1080-1109) -/

/-- One `(drug, prediction, evidence)` entry of a piezo prediction
table, i.e. one emitted effects row. -/
structure DrugPred where
  drug : String
  pred : String
  evidence : String
deriving DecidableEq, Repr

/-- Result of one `resistanceCatalogue.predict(...)` call: either the
string `'S'` or a mapping drug → (prediction, evidence). -/
inductive PredictionResult where
  | sus : PredictionResult
  | table : List DrugPred → PredictionResult

/-- The effect rows emitted by the `populateEffects` candidate loop:
nothing for an `'S'` prediction, one row per drug of a prediction
table (source lines 899-915). -/
def effectRows (cands : List PredictionResult) : List DrugPred :=
  cands.flatMap (fun c => match c with | .sus => [] | .table l => l)

/-- The body of the `populateEffects` phenotype update (source lines
903-907): the running phenotype for a drug is replaced by the new
prediction exactly when the new prediction sits strictly earlier in the
catalogue's `values` list. -/
def updatePhenotype (values : List String) (current pred : String) : String :=
  if values.indexOf pred < values.indexOf current then pred else current

/-- The `phenotype` dictionary computed by `populateEffects`: start
every drug at `'S'` (line 874) and fold the update over all emitted
effect rows in order (lines 899-907).  The source's nested loops over
candidates and over `prediction.keys()` traverse exactly the
concatenated row sequence `effectRows cands`. -/
def populateEffectsPhenotype (values : List String) (cands : List PredictionResult) : String → String :=
  (effectRows cands).foldl
    (fun ph r => fun d => if d = r.drug then updatePhenotype values (ph d) r.pred else ph d)
    (fun _ => "S")

/-- The predictions of the effect rows belonging to one drug, in emission
order (the per-drug list `_effects[drug]` built in `saveJSON`). -/
def drugPredsFor (rows : List DrugPred) (d : String) : List String :=
  (rows.filter (fun r => r.drug == d)).map (fun r => r.pred)

/-- `saveJSON`'s per-drug phenotype (source lines 1094-1101): start at
`'S'` and keep the prediction with the smaller index in `values`. -/
def saveJSONPhenotype (values : List String) (rows : List DrugPred) (d : String) : String :=
  (drugPredsFor rows d).foldl
    (fun ph p => if values.indexOf p < values.indexOf ph then p else ph) "S"

/-- `saveJSON`'s antibiogram entry for a drug (source lines 1094-1108):
the folded phenotype for drugs with effect rows, `"S"` for catalogue
drugs without any, and absent (`none`) for a drug in neither set. -/
def saveJSONAntibiogram (values : List String) (rows : List DrugPred) (catDrugs : List String) (d : String) : Option String :=
  if (rows.map (fun r => r.drug)).contains d then some (saveJSONPhenotype values rows d)
  else if catDrugs.contains d then some "S"
  else none

/-! ## Catalogue model and `getMutations` (lines 791-848) -/

/-- One row of `catalogue.catalogue.rules`, holding the columns
`getMutations` consults. -/
structure CatalogueRule where
  mutation_type : String
  mutation : String
  mutation_affects : String
deriving DecidableEq, Repr

/-- The slice of a piezo `ResistanceCatalogue` used by the embedded
functions. -/
structure CatalogueModel where
  rules : List CatalogueRule
  drugs : List String
  values : List String
  genes : List String
deriving DecidableEq, Repr

/-- Characters accepted by the nucleotide-SNP regex character class
`[acgtzx]`. -/
def isGarcBase (c : Char) : Bool :=
  c = 'a' || c = 'c' || c = 'g' || c = 't' || c = 'z' || c = 'x'

/-- Full match of the source regex `[acgtzx][0-9]+[acgtzx]`
(source lines 832-835). -/
def nucSnpMatch (s : String) : Bool :=
  let cs := s.data
  decide (3 ≤ cs.length) && isGarcBase (cs.headD ' ') && isGarcBase (cs.getLastD ' ')
    && ((cs.drop 1).dropLast.all fun c => c.isDigit)

/-- Full match of `0\.[0-9][0-9]?[0-9]?`: a `0.` fraction with one to
three decimals. -/
def fracMatch : List Char → Bool
  | c1 :: c2 :: ds =>
    c1 == '0' && c2 == '.' && decide (1 ≤ ds.length) && decide (ds.length ≤ 3)
      && ds.all (fun c => c.isDigit)
  | _ => false

/-- Full match of the source regex `del_(1\.0)|(0\.[0-9][0-9]?[0-9]?)`
exactly as written (source lines 842-844).  The alternation is
unparenthesised, so the two alternatives are the literal `del_1.0` and a
bare fraction `0.` followed by one to three digits. -/
def codeLargeDel (s : String) : Bool :=
  s == "del_1.0" || fracMatch s.data

/-- Modelled from the spec: the large-deletion pattern the specification
describes — `del_` followed by a fractional extent `0.` with one to
three decimals, or by `1.0`.  (The pattern the source regex was
evidently intended to express.) -/
def specLargeDel (s : String) : Bool :=
  match s.data with
  | 'd' :: 'e' :: 'l' :: '_' :: rest =>
    (String.mk rest == "1.0") ||
      (match rest with
       | '0' :: '.' :: ds => decide (1 ≤ ds.length) && decide (ds.length ≤ 3) && ds.all (fun c => c.isDigit)
       | _ => false)
  | _ => false

/-- `getMutations` (source lines 791-848).  `muts` is the zipped
`(gene, mutation)` list from the mutations dataframe, `codesProteinOf`
models `referenceGenes[gene].codes_protein`.  Multi-rules are collected
from the catalogue's `MULTI` rows (a Python set: `dedup`), each rule is
tested against the `gene@mutation` join of the *original* mutation list,
and the final list drops nucleotide SNPs inside coding genes and — when
the catalogue has no `GENE` rule — strings matched by the large-deletion
regex. -/
def getMutations (muts : List (String × String)) (catalogue : CatalogueModel)
    (codesProteinOf : String → Bool) : List (Option String × String) :=
  let mutations : List (Option String × String) := muts.map (fun gm => (some gm.1, gm.2))
  let multis := ((catalogue.rules.filter (fun r => r.mutation_type == "MULTI")).map
    (fun r => r.mutation)).dedup
  let joined := muts.map (fun gm => gm.1 ++ "@" ++ gm.2)
  let withMultis := mutations ++
    (multis.filter (fun multi => (splitOnChar '&' multi).all (fun t => joined.contains t))).map
      (fun multi => ((none : Option String), multi))
  let large_dels := (catalogue.rules.map (fun r => r.mutation_affects)).contains "GENE"
  withMultis.filter (fun gm =>
    !(match gm.1 with
      | some g => codesProteinOf g && nucSnpMatch gm.2
      | none => false)
    && (large_dels || !(codeLargeDel gm.2)))

/-! ## `getGenes` (lines 246-289) -/

/-- The reference genome data `getGenes` reads: the stacked gene-name /
nucleotide-index arrays, as rows of `(gene_name, nucleotide_index)`
slots. -/
structure GetGenesRef where
  stackedRows : List (List (String × Int))

/-- The sample genome data `getGenes` reads: its gene names, the
coordinates of its minor-population calls (`population[0]`), and the
`is_deleted` mask over genome positions. -/
structure GetGenesSample where
  genes : List String
  minorCoords : List Int
  is_deleted : List Bool

/-- `getGenes` (source lines 246-289).  With a catalogue: the union of
genes hit by a variant coordinate, genes at a minor-population
coordinate (skipping the empty stacked name), and genes under the
deletion mask, intersected with the catalogue genes when
`resistanceGenesOnly` and with the sample genes otherwise.  Without a
catalogue: the sample's genes. -/
def getGenes (ref : GetGenesRef) (sample : GetGenesSample) (diffIdx : List Int)
    (cat : Option (List String)) (resistanceGenesOnly : Bool) : List String :=
  match cat with
  | some catGenes =>
    let resistanceGenes := if resistanceGenesOnly then catGenes else sample.genes
    let flat := ref.stackedRows.flatten
    let genesWithMutations := ((flat.filter (fun p => diffIdx.contains p.2)).map
      (fun p => p.1)).dedup
    let minorGenes := (sample.minorCoords.flatMap (fun coord =>
      ((flat.filter (fun p => p.2 == coord)).map (fun p => p.1)).filter
        (fun g => !(g == "")))).dedup
    let deletions := ref.stackedRows.flatMap (fun row =>
      (((row.zip sample.is_deleted).filter (fun q => q.2)).map (fun q => q.1.1)).dedup)
    ((genesWithMutations ++ minorGenes ++ deletions).dedup).filter
      (fun g => resistanceGenes.contains g)
  | none => sample.genes

/-! ## `populateMutations` pieces (lines 291-423) -/

/-- One entry of the `codes_protein` column comprehension of
`populateMutations` (source line 341):
`diff.codes_protein and pos > 0 if pos is not None else diff.codes_protein`. -/
def codesProteinEntry (geneCodes : Bool) (pos : Option Int) : Bool :=
  match pos with
  | some p => geneCodes && decide (0 < p)
  | none => geneCodes

/-- The whole `codes_protein` column for one gene's difference. -/
def populateMutations_codes_protein (geneCodes : Bool) (positions : List (Option Int)) : List Bool :=
  positions.map (codesProteinEntry geneCodes)

/-- The columns of a mutations-table row consulted by the CSV
synonymous-SNP filter of `populateMutations` (source lines 410-419). -/
structure CsvMutRow where
  gene : String
  mutation : String
  ref : Option String
  alt : Option String
  codes_protein : Bool
deriving DecidableEq, Repr

/-- The drop test of the CSV filter (source lines 414-418): a row is
queued for dropping iff it `codes_protein`, its `ref` and `alt` are not
`None`, and `len(ref) == 1`. -/
def csvDropRow (r : CsvMutRow) : Bool :=
  r.codes_protein && r.ref.isSome && r.alt.isSome && ((r.ref.getD "").length == 1)

/-- The mutation rows written to the CSV (the deep-copied `mutations_`
after dropping). -/
def csvMutations (rows : List CsvMutRow) : List CsvMutRow :=
  rows.filter (fun r => !(csvDropRow r))

/-- `populateMutations`' CSV step (source lines 403-423): the pair of
(rows saved to the CSV, rows returned to callers).  The filter acts on a
deep copy, so the returned table is the input itself. -/
def populateMutationsCsvAndReturn (rows : List CsvMutRow) : List CsvMutRow × List CsvMutRow :=
  (csvMutations rows, rows)

/-! ## `minority_population_mutations` (lines 644-789) -/

/-- The slice of a gumpy `GeneDifference` consumed by
`minority_population_mutations`.  `minorResult` is the outcome of the
external `diff.minor_populations(...)` call (which may raise);
the function fields model the array lookups
`gene2.minor_nc_changes[num]`,
`gene1.nucleotide_index[gene1.nucleotide_number == num][0]`,
`gene1.codons[gene1.amino_acid_number == num][0]`,
`gene1.nucleotide_sequence[...][0]` and
`gene2.nucleotide_sequence[...][0]`. -/
structure GeneDiffModel where
  gene1Name : String
  gene2Name : String
  codes_protein : Bool
  minorResult : Except String (List String)
  minor_nc_changes : Int → Int
  nucIndexOf : Int → Int
  codonAt : Int → String
  refBaseAt : Int → String
  altBaseAt : Int → String

/-- One row of the minority-mutations table (the `vals` dictionary of
source lines 760-774). -/
structure MinorMutationRow where
  mutation : String
  gene : String
  nucleotide_number : Option Int
  nucleotide_index : Option Int
  gene_position : Int
  alt : Option String
  ref : Option String
  codes_protein : Bool
  indel_length : Option Int
  indel_nucleotides : Option String
  amino_acid_number : Option Int
  amino_acid_sequence : Option String
  number_nucleotide_changes : Int
deriving DecidableEq, Repr

/-- The gene-number extraction of source lines 693-699:
indel `\<idx\>_...`, synonymous SNP `\<idx\>=`, or SNP `\<ref\>\<idx\>\<alt\>`. -/
def parseGeneNum (m : String) : Int :=
  if strContains m '_' then (strToInt? ((splitOnChar '_' m).headD "")).getD 0
  else if strContains m '=' then (strToInt? (strDropRight m 1)).getD 0
  else (strToInt? (strDropRight (strDrop m 1) 1)).getD 0

/-- Build one minority-mutation row (the loop body of source lines
702-758).  `fullMut` is the `<mutation>:<evidence>` string; the fields
follow the indel / protein-SNP / other-SNP classification exactly. -/
def buildMinorRow (d : GeneDiffModel) (fullMut : String) : MinorMutationRow :=
  let m := (splitOnChar ':' fullMut).headD ""
  let num := parseGeneNum m
  if strContains m '_' then
    match splitOnChar '_' m with
    | [_, t, bases] =>
      { mutation := fullMut, gene := d.gene1Name, gene_position := num,
        codes_protein := d.codes_protein && decide (0 < num),
        number_nucleotide_changes := d.minor_nc_changes num,
        indel_nucleotides := some bases,
        indel_length := some (if t == "del" then -(bases.length : Int) else (bases.length : Int)),
        ref := none, alt := none,
        nucleotide_number := some num, nucleotide_index := some (d.nucIndexOf num),
        amino_acid_number := none, amino_acid_sequence := none }
    | _ =>
      { mutation := fullMut, gene := d.gene1Name, gene_position := num,
        codes_protein := d.codes_protein && decide (0 < num),
        number_nucleotide_changes := d.minor_nc_changes num,
        indel_nucleotides := none, indel_length := none,
        ref := none, alt := none,
        nucleotide_number := some num, nucleotide_index := some (d.nucIndexOf num),
        amino_acid_number := none, amino_acid_sequence := none }
  else if (m.data.headD ' ').isUpper || (m.data.headD ' ') = '!' then
    { mutation := fullMut, gene := d.gene1Name, gene_position := num,
      codes_protein := d.codes_protein && decide (0 < num),
      number_nucleotide_changes := d.minor_nc_changes num,
      indel_length := none, indel_nucleotides := none,
      nucleotide_number := none, nucleotide_index := none,
      ref := some (d.codonAt num), alt := some "zzz",
      amino_acid_number := some num, amino_acid_sequence := some (strTakeRight m 1) }
  else
    { mutation := fullMut, gene := d.gene1Name, gene_position := num,
      codes_protein := d.codes_protein && decide (0 < num),
      number_nucleotide_changes := d.minor_nc_changes num,
      indel_length := none, indel_nucleotides := none,
      nucleotide_number := some num, nucleotide_index := some (d.nucIndexOf num),
      ref := some (d.refBaseAt num), alt := some (d.altBaseAt num),
      amino_acid_number := none, amino_acid_sequence := none }

/-- `minority_population_mutations` (source lines 644-789): iterate the
gene differences; a failing `minor_populations` call is recorded in the
error map under `gene2.name` and its gene is skipped, a succeeding one
contributes one row per minor mutation. -/
def minority_population_mutations : List GeneDiffModel → List MinorMutationRow × List (String × String)
  | [] => ([], [])
  | d :: rest =>
    let acc := minority_population_mutations rest
    match d.minorResult with
    | .error e => (acc.1, (d.gene2Name, e) :: acc.2)
    | .ok muts => (muts.map (buildMinorRow d) ++ acc.1, acc.2)

/-! ## `minority_population_variants` (lines 425-641) -/

/-- One parsed VCF evidence record (`vcf['POS']`, `vcf['REF']`,
`vcf['ALTS']`, `vcf['COV']`). -/
structure VcfRecord where
  pos : Int
  ref : String
  alts : List String
  cov : List Rat
deriving DecidableEq, Repr

/-- One slot of the reference genome's stacked arrays: gene name,
nucleotide index and nucleotide number at that slot (row-major
flattening of `stacked_gene_name` / `stacked_nucleotide_index` /
`stacked_nucleotide_number`). -/
structure StackSlot where
  gene : String
  nucIndex : Int
  nucNumber : Int
deriving DecidableEq, Repr

/-- The environment `minority_population_variants` runs in:
`genome2.vcf_evidence.get`, the reference's stacked arrays, the
reference's plain `nucleotide_index` list, the per-gene
`codes_protein` flags, the external `diff.get_gene_pos` and the external
`vcf_file._simplify_call` (returning `(offset, type, bases)` calls). -/
structure MinorityEnv where
  vcfEvidence : Int → Option VcfRecord
  stacked : List StackSlot
  genomeIndices : List Int
  genesCodesProtein : String → Bool
  getGenePos : String → Int → String → Int
  simplify : String → String → List (Int × String × String)

/-- One row of the minority-variants table (the `vals` dictionary of
source lines 621-631; `vcf_evidence` holds the record that
`json.dumps` serialises). -/
structure VariantRow where
  variant : String
  nucleotide_index : Int
  indel_length : Int
  indel_nucleotides : Option String
  vcf_evidence : Option VcfRecord
  vcf_idx : Option Nat
  gene : Option String
  gene_position : Option Int
  codon_idx : Option Int
deriving DecidableEq, Repr

/-- The per-call fields shared by every row the call produces, computed
before the gene fan-out (source lines 465-566). -/
structure BaseRow where
  variantFull : String
  garc : String
  idx : Int
  indel_length : Int
  indel_nucleotides : Option String
  vcf_evidence : Option VcfRecord
  vcf_idx : Option Nat
deriving DecidableEq, Repr

/-- The `variant` part of a `<variant>:<evidence>` call string. -/
def garcPart (raw : String) : String := (splitOnChar ':' raw).headD ""

/-- The `evidence` part of a `<variant>:<evidence>` call string. -/
def evPart (raw : String) : String := (splitOnChar ':' raw).getLastD ""

/-- `variant.split(">")[0]` of a SNP call. -/
def snpPre (garc : String) : String := (splitOnChar '>' garc).headD ""

/-- The genome index of a SNP call: `int(variant.split(">")[0][:-1])`. -/
def snpIdx (garc : String) : Int := (strToInt? (strDropRight (snpPre garc) 1)).getD 0

/-- The reference base of a SNP call: `variant.split(">")[0][-1]`. -/
def snpRef (garc : String) : String := strTakeRight (snpPre garc) 1

/-- The alternate base of a SNP call: `variant.split(">")[-1]`. -/
def snpAlt (garc : String) : String := (splitOnChar '>' garc).getLastD ""

/-- The coordinates the caller cares about (source lines 452-462):
the stacked coordinates of the selected genes, or every reference
coordinate when no gene set is given. -/
def indicesWeCareAbout (env : MinorityEnv) (genes : Option (List String)) : List Int :=
  match genes with
  | some gs => (env.stacked.filter (fun s => gs.contains s.gene)).map (fun s => s.nucIndex)
  | none => env.genomeIndices

/-- FRS conversion of the COV column (source lines 487-492 / 529-535):
when the evidence is a fraction, divide each coverage entry by the total
depth and round to three decimals; division by a zero total raises. -/
def covFRS (v : VcfRecord) (ev : Rat) : Except String (List Rat) :=
  if ev < 1 then
    if v.cov.sum = 0 then .error "ZeroDivisionError: division by zero"
    else .ok (v.cov.map (fun x => round3 (x / v.cov.sum)))
  else .ok v.cov

/-- Inner SNP matching loop (source lines 501-508): scan the enumerated
characters of one ALT; on a base + position match check the coverage
entry (a missing entry is Python's `IndexError`). -/
def snpScanChars (covK : Option Rat) (ev : Rat) (pos idx : Int) (minorCall : String) :
    List (Nat × Char) → Except String Bool
  | [] => .ok false
  | (i, a) :: rest =>
    if String.mk [a] = minorCall ∧ idx = pos + (i : Int) then
      match covK with
      | none => .error "IndexError: list index out of range"
      | some c =>
        if ev = c then .ok true
        else snpScanChars covK ev pos idx minorCall rest
    else snpScanChars covK ev pos idx minorCall rest

/-- Outer SNP matching loop (source lines 495-508): try each ALT in
turn with its 1-based index `k + 1`; stop at the first ALT whose
character scan succeeds. -/
def snpScanAlts (cov : List Rat) (ev : Rat) (pos idx : Int) (minorCall : String) :
    Nat → List String → Except String (Option Nat)
  | _, [] => .ok none
  | k, alt :: rest =>
    match snpScanChars (cov.get? (k + 1)) ev pos idx minorCall alt.data.enum with
    | .error e => .error e
    | .ok true => .ok (some (k + 1))
    | .ok false => snpScanAlts cov ev pos idx minorCall (k + 1) rest

/-- `vcf_idx` resolution for a SNP call (source lines 478-515): a
wildtype call (`ref == alt`) yields the sentinel `0` immediately;
otherwise the ALT list of the (required) VCF record is scanned and a
scan without a match warns and yields `None`.  The `Bool` records
whether the warning was emitted. -/
def vcfIdxSnp (vcfOpt : Option VcfRecord) (ev : Rat) (idx : Int) (ref alt : String) :
    Except String (Option Nat × Bool) :=
  if ref = alt then .ok (some 0, false)
  else
    match vcfOpt with
    | none => .error "TypeError: NoneType is not subscriptable"
    | some v =>
      match covFRS v ev with
      | .error e => .error e
      | .ok cov =>
        match snpScanAlts cov ev v.pos idx alt 0 v.alts with
        | .error e => .error e
        | .ok (some k) => .ok (some k, false)
        | .ok none => .ok (none, true)

/-- Inner indel matching loop (source lines 547-553): scan the
decomposed calls of one ALT; on a position + type + bases match check
the coverage entry. -/
def indelScanCalls (covK : Option Rat) (ev : Rat) (pos idx : Int) (t bases : String) :
    List (Int × String × String) → Except String Bool
  | [] => .ok false
  | (offset, ty, b) :: rest =>
    if pos + offset = idx ∧ t = ty ∧ bases = b then
      match covK with
      | none => .error "IndexError: list index out of range"
      | some c =>
        if ev = c then .ok true
        else indelScanCalls covK ev pos idx t bases rest
    else indelScanCalls covK ev pos idx t bases rest

/-- Outer indel matching loop (source lines 541-553). -/
def indelScanAlts (simplify : String → String → List (Int × String × String))
    (ref : String) (cov : List Rat) (ev : Rat) (pos idx : Int) (t bases : String) :
    Nat → List String → Except String (Option Nat)
  | _, [] => .ok none
  | k, alt :: rest =>
    match indelScanCalls (cov.get? (k + 1)) ev pos idx t bases (simplify ref alt) with
    | .error e => .error e
    | .ok true => .ok (some (k + 1))
    | .ok false => indelScanAlts simplify ref cov ev pos idx t bases (k + 1) rest

/-- `vcf_idx` resolution for an indel call (source lines 525-559). -/
def vcfIdxIndel (simplify : String → String → List (Int × String × String))
    (vcfOpt : Option VcfRecord) (ev : Rat) (idx : Int) (t bases : String) :
    Except String (Option Nat × Bool) :=
  match vcfOpt with
  | none => .error "TypeError: NoneType is not subscriptable"
  | some v =>
    match covFRS v ev with
    | .error e => .error e
    | .ok cov =>
      match indelScanAlts simplify v.ref cov ev v.pos idx t bases 0 v.alts with
      | .error e => .error e
      | .ok (some k) => .ok (some k, false)
      | .ok none => .ok (none, true)

/-- Build the shared per-call fields of one minor-population call
(source lines 465-566): parse the call, drop it when its coordinate is
outside the cared-about set (`.ok none`), resolve `vcf_idx`, and fill
the indel columns from the `_`-split. -/
def buildBase (env : MinorityEnv) (genes : Option (List String)) (raw : String) :
    Except String (Option BaseRow) :=
  let variant := garcPart raw
  let ev := parseEv (evPart raw)
  if strContains variant '>' then
    let idx := snpIdx variant
    if (indicesWeCareAbout env genes).contains idx then
      let vcfOpt := env.vcfEvidence idx
      match vcfIdxSnp vcfOpt ev idx (snpRef variant) (snpAlt variant) with
      | .error e => .error e
      | .ok (vidx, _warned) =>
        .ok (some { variantFull := raw, garc := variant, idx := idx,
                    indel_length := if strContains variant '_' then
                      (((splitOnChar '_' variant).getLastD "").length : Int) else 0,
                    indel_nucleotides := if strContains variant '_' then
                      some ((splitOnChar '_' variant).getLastD "") else none,
                    vcf_evidence := vcfOpt, vcf_idx := vidx })
    else .ok none
  else
    match splitOnChar '_' variant with
    | idxStr :: type_ :: restParts =>
      let idx : Int := (strToInt? idxStr).getD 0
      if (indicesWeCareAbout env genes).contains idx then
        let vcfOpt := env.vcfEvidence idx
        let bases := (idxStr :: type_ :: restParts).getLastD ""
        match vcfIdxIndel env.simplify vcfOpt ev idx type_ bases with
        | .error e => .error e
        | .ok (vidx, _warned) =>
          .ok (some { variantFull := raw, garc := variant, idx := idx,
                      indel_length := (bases.length : Int),
                      indel_nucleotides := some bases,
                      vcf_evidence := vcfOpt, vcf_idx := vidx })
      else .ok none
    | _ => .error "IndexError: list index out of range"

/-- The gene names stacked at a coordinate:
`sorted(list(set(stacked_gene_name[stacked_nucleotide_index == idx])))`
(source line 569). -/
def geneNamesAt (env : MinorityEnv) (idx : Int) : List String :=
  sortStrings (((env.stacked.filter (fun s => s.nucIndex == idx)).map (fun s => s.gene)).dedup)

/-- The codon index of a coordinate inside a coding gene
(source lines 582-584 / 609-611):
`stacked_nucleotide_number[gene mask][index mask][0] % 3`.  The source
indexes `[0]` of a selection that is non-empty whenever the gene was
found at the coordinate. -/
def codonIdxAt (env : MinorityEnv) (g : String) (idx : Int) : Int :=
  ((((env.stacked.filter (fun s => s.gene == g)).filter (fun s => s.nucIndex == idx)).map
    (fun s => s.nucNumber)).headD 0) % 3

/-- One annotated row for a gene overlapping the call's coordinate
(source lines 578-586 / 603-613). -/
def annotateRow (env : MinorityEnv) (b : BaseRow) (g : String) : VariantRow :=
  let gp := env.getGenePos g b.idx b.garc
  { variant := b.variantFull, nucleotide_index := b.idx,
    indel_length := b.indel_length, indel_nucleotides := b.indel_nucleotides,
    vcf_evidence := b.vcf_evidence, vcf_idx := b.vcf_idx,
    gene := some g, gene_position := some gp,
    codon_idx := if env.genesCodesProtein g && decide (0 < gp) then
      some (codonIdxAt env g b.idx) else none }

/-- The single row of a call whose coordinate overlaps no gene
(source lines 614-617). -/
def intergenicRow (b : BaseRow) : VariantRow :=
  { variant := b.variantFull, nucleotide_index := b.idx,
    indel_length := b.indel_length, indel_nucleotides := b.indel_nucleotides,
    vcf_evidence := b.vcf_evidence, vcf_idx := b.vcf_idx,
    gene := none, gene_position := none, codon_idx := none }

/-- The gene fan-out of one call (source lines 568-617): with more than
one stacked name, one row per non-empty gene name, every row repeating
the call's shared fields; with at most one name, a single annotated or
intergenic row. -/
def fanOut (env : MinorityEnv) (b : BaseRow) : List VariantRow :=
  let gs := geneNamesAt env b.idx
  if 1 < gs.length then
    (gs.filter (fun g => !(g == ""))).map (annotateRow env b)
  else
    let g := gs.headD ""
    if g ≠ "" then [annotateRow env b g]
    else [intergenicRow b]

/-- Process one minor-population call string: shared fields then gene
fan-out; a skipped call contributes no rows. -/
def processCall (env : MinorityEnv) (genes : Option (List String)) (raw : String) :
    Except String (List VariantRow) :=
  match buildBase env genes raw with
  | .error e => .error e
  | .ok none => .ok []
  | .ok (some b) => .ok (fanOut env b)

/-- `minority_population_variants` (source lines 425-641) over the call
strings returned by `diff.minor_populations(...)`. -/
def minority_population_variants (env : MinorityEnv) (genes : Option (List String)) :
    List String → Except String (List VariantRow)
  | [] => .ok []
  | raw :: rest =>
    match processCall env genes raw with
    | .error e => .error e
    | .ok rows =>
      match minority_population_variants env genes rest with
      | .error e => .error e
      | .ok rest' => .ok (rows ++ rest')

/-! ## Example inputs used by witnesses and counterexamples -/

/-- Prediction results of three effect candidates: a `U` hit for `d1`,
one susceptible candidate, and a table hitting `d1` with `R` and `d2`
with `F`. -/
def exCandsC1 : List PredictionResult :=
  [.table [⟨"d1", "U", "e1"⟩], .sus, .table [⟨"d1", "R", "e2"⟩, ⟨"d2", "F", "e3"⟩]]

/-- Two mutations matching the two terms of one MULTI rule. -/
def exMutsC2 : List (String × String) := [("g1", "A1B"), ("g2", "C2D")]

/-- A catalogue with a single MULTI rule over those two mutations. -/
def exCatC2 : CatalogueModel :=
  { rules := [{ mutation_type := "MULTI", mutation := "g1@A1B&g2@C2D",
                mutation_affects := "EPISTASIS" }],
    drugs := ["AAA"], values := ["R", "U", "S"], genes := ["g1", "g2"] }

/-- A catalogue declaring no GENE-level (whole-gene deletion) rule. -/
def exCatC5 : CatalogueModel :=
  { rules := [{ mutation_type := "SNP", mutation := "a1c", mutation_affects := "NUCLEOTIDE" }],
    drugs := ["AAA"], values := ["R", "U", "S"], genes := ["geneA"] }

/-- A reference whose single stacked slot puts gene `gX` at coordinate 1. -/
def exRefC3 : GetGenesRef := { stackedRows := [[("gX", 1)]] }

/-- A sample with no genes of its own, no minor calls and no deletions. -/
def exSampleC3 : GetGenesSample := { genes := [], minorCoords := [], is_deleted := [false] }

/-- A protein-coding mutations row with a one-base ref and a
three-base alt. -/
def exRowC6 : CsvMutRow :=
  { gene := "gA", mutation := "K3K", ref := some "a", alt := some "acg", codes_protein := true }

/-- A gene difference whose minor-population extraction succeeds with
one call. -/
def exDiffOkC8 : GeneDiffModel :=
  { gene1Name := "gOk", gene2Name := "gOk", codes_protein := true,
    minorResult := .ok ["A3B:0.05"],
    minor_nc_changes := fun _ => 1, nucIndexOf := fun _ => 0,
    codonAt := fun _ => "gcg", refBaseAt := fun _ => "g", altBaseAt := fun _ => "t" }

/-- A gene difference whose minor-population extraction raises. -/
def exDiffErrC8 : GeneDiffModel :=
  { gene1Name := "gBad", gene2Name := "gBad", codes_protein := false,
    minorResult := .error "Traceback: boom",
    minor_nc_changes := fun _ => 0, nucIndexOf := fun _ => 0,
    codonAt := fun _ => "", refBaseAt := fun _ => "", altBaseAt := fun _ => "" }

/-- A well-formed VCF record: one ALT, coverage for REF and the ALT. -/
def exVcfC9 : VcfRecord := { pos := 10, ref := "a", alts := ["c"], cov := [3, 4] }

/-- An environment with no VCF record, no stacked genes, and coordinate
7 in the reference index list. -/
def exEnvC10 : MinorityEnv :=
  { vcfEvidence := fun _ => none, stacked := [], genomeIndices := [7],
    genesCodesProtein := fun _ => false, getGenePos := fun _ _ _ => 0,
    simplify := fun _ _ => [] }

/-- An environment stacking two genes over coordinate 5. -/
def exEnvC7 : MinorityEnv :=
  { vcfEvidence := fun _ => none,
    stacked := [{ gene := "gA", nucIndex := 5, nucNumber := 1 },
                { gene := "gB", nucIndex := 5, nucNumber := 2 }],
    genomeIndices := [5], genesCodesProtein := fun _ => false,
    getGenePos := fun _ _ _ => 3, simplify := fun _ _ => [] }

/-- The shared fields of a wildtype SNP call at coordinate 5. -/
def exBaseC7 : BaseRow :=
  { variantFull := "5g>g:0.1", garc := "5g>g", idx := 5, indel_length := 0,
    indel_nucleotides := none, vcf_evidence := none, vcf_idx := some 0 }

/-! ## Helper lemmas -/

theorem splitListChar_ne_nil (sep : Char) (l : List Char) : splitListChar sep l ≠ [] := by
  cases l with
  | nil => simp [splitListChar]
  | cons c rest =>
    simp only [splitListChar]
    split <;> simp

theorem mem_of_mem_splitListChar {sep : Char} {l t : List Char}
    (ht : t ∈ splitListChar sep l) : ∀ c ∈ t, c ∈ l := by
  induction l generalizing t with
  | nil =>
    intro c hc
    simp only [splitListChar, List.mem_singleton] at ht
    subst ht
    simp at hc
  | cons a rest ih =>
    intro c hc
    simp only [splitListChar] at ht
    by_cases ha : a = sep
    · rw [if_pos ha] at ht
      rcases List.mem_cons.mp ht with h | h
      · subst h; simp at hc
      · exact List.mem_cons_of_mem _ (ih h c hc)
    · rw [if_neg ha] at ht
      rcases List.mem_cons.mp ht with h | h
      · subst h
        rcases List.mem_cons.mp hc with h2 | h2
        · subst h2; exact List.mem_cons_self _ _
        · have hh : (splitListChar sep rest).headD [] ∈ splitListChar sep rest := by
            cases hr : splitListChar sep rest with
            | nil => exact absurd hr (splitListChar_ne_nil sep rest)
            | cons x xs => simp
          exact List.mem_cons_of_mem _ (ih hh c h2)
      · exact List.mem_cons_of_mem _ (ih (List.mem_of_mem_tail h) c hc)

theorem splitListChar_of_not_mem {sep : Char} {l : List Char} (h : sep ∉ l) :
    splitListChar sep l = [l] := by
  induction l with
  | nil => rfl
  | cons a rest ih =>
    simp only [splitListChar]
    have ha : ¬(a = sep) := fun he => h (he ▸ List.mem_cons_self _ _)
    rw [if_neg ha, ih (fun hm => h (List.mem_cons_of_mem _ hm))]
    rfl

theorem insertSorted_perm (x : String) (l : List String) : (insertSorted x l).Perm (x :: l) := by
  induction l with
  | nil => exact List.Perm.refl _
  | cons y ys ih =>
    simp only [insertSorted]
    split
    · exact (List.Perm.cons y ih).trans (List.Perm.swap x y ys)
    · exact List.Perm.refl _

theorem sortStrings_perm (l : List String) : (sortStrings l).Perm l := by
  induction l with
  | nil => exact List.Perm.refl _
  | cons x xs ih => exact (insertSorted_perm x (sortStrings xs)).trans (List.Perm.cons x ih)

/-! ## C1 lemmas -/

theorem populateEffectsPhenotype_eq_foldl (values : List String) (cands : List PredictionResult)
    (d : String) :
    populateEffectsPhenotype values cands d
      = (drugPredsFor (effectRows cands) d).foldl (updatePhenotype values) "S" := by
  unfold populateEffectsPhenotype
  generalize effectRows cands = rows
  suffices h : ∀ (rows : List DrugPred) (f : String → String),
      (rows.foldl
        (fun ph r => fun d0 => if d0 = r.drug then updatePhenotype values (ph d0) r.pred else ph d0)
        f) d
        = (drugPredsFor rows d).foldl (updatePhenotype values) (f d) from h rows _
  intro rows
  induction rows with
  | nil => intro f; simp [drugPredsFor]
  | cons r rs ih =>
    intro f
    rw [List.foldl_cons, ih]
    unfold drugPredsFor
    rw [List.filter_cons]
    by_cases hdr : r.drug = d
    · subst hdr
      simp
    · have hbeq : (r.drug == d) = false := by simp [hdr]
      have hdne : d ≠ r.drug := fun h => hdr h.symm
      simp [hbeq, hdne]

theorem foldl_updatePhenotype_mem (values : List String) (preds : List String) (init : String) :
    preds.foldl (updatePhenotype values) init = init
      ∨ preds.foldl (updatePhenotype values) init ∈ preds := by
  induction preds generalizing init with
  | nil => exact Or.inl rfl
  | cons p ps ih =>
    rw [List.foldl_cons]
    rcases ih (updatePhenotype values init p) with h | h
    · rw [h]
      unfold updatePhenotype
      split
      · exact Or.inr (List.mem_cons_self _ _)
      · exact Or.inl rfl
    · exact Or.inr (List.mem_cons_of_mem _ h)

theorem foldl_updatePhenotype_le (values : List String) (preds : List String) (init : String) :
    values.indexOf (preds.foldl (updatePhenotype values) init) ≤ values.indexOf init
      ∧ ∀ p ∈ preds,
        values.indexOf (preds.foldl (updatePhenotype values) init) ≤ values.indexOf p := by
  induction preds generalizing init with
  | nil => exact ⟨le_refl _, by simp⟩
  | cons p ps ih =>
    rw [List.foldl_cons]
    obtain ⟨h1, h2⟩ := ih (updatePhenotype values init p)
    have hup : values.indexOf (updatePhenotype values init p) ≤ values.indexOf init
        ∧ values.indexOf (updatePhenotype values init p) ≤ values.indexOf p := by
      unfold updatePhenotype
      split
      · constructor
        · exact le_of_lt (by assumption)
        · exact le_refl _
      · constructor
        · exact le_refl _
        · exact le_of_not_lt (by assumption)
    refine ⟨le_trans h1 hup.1, ?_⟩
    intro q hq
    rcases List.mem_cons.mp hq with h | h
    · subst h; exact le_trans h1 hup.2
    · exact h2 q h

theorem indexOf_of_getLast_S {values : List String} (hS : values.getLast? = some "S")
    (hnd : values.Nodup) :
    values.indexOf "S" + 1 = values.length ∧
      ∀ p ∈ values,
        values.indexOf p ≤ values.indexOf "S"
          ∧ (values.indexOf p = values.indexOf "S" → p = "S") := by
  have hlen : values ≠ [] := by
    intro h
    rw [h] at hS
    simp at hS
  have hget : values[values.length - 1]? = some "S" := by
    rw [← List.getLast?_eq_getElem?]
    exact hS
  have hlt : values.length - 1 < values.length :=
    Nat.sub_lt (List.length_pos.mpr hlen) one_pos
  have hgetE : values[values.length - 1] = "S" := by
    rw [List.getElem?_eq_getElem hlt] at hget
    exact Option.some_injective _ hget
  have hmemS : "S" ∈ values := hgetE ▸ List.getElem_mem hlt
  have hidxlt : values.indexOf "S" < values.length := List.indexOf_lt_length.mpr hmemS
  have hidxval : values[values.indexOf "S"] = "S" := List.getElem_indexOf hidxlt
  have hidx : values.indexOf "S" = values.length - 1 := by
    exact (@List.Nodup.getElem_inj_iff _ _ hnd _ hidxlt _ hlt).mp (by rw [hidxval, hgetE])
  refine ⟨by omega, ?_⟩
  intro p hp
  have hplt : values.indexOf p < values.length := List.indexOf_lt_length.mpr hp
  refine ⟨by omega, ?_⟩
  intro he
  have h1 : values[values.indexOf p]? = some p := by
    rw [List.getElem?_eq_getElem hplt, List.getElem_indexOf hplt]
  have h2 : values[values.indexOf "S"]? = some "S" := by
    rw [List.getElem?_eq_getElem hidxlt, hidxval]
  rw [he, h2] at h1
  exact (Option.some_injective _ h1).symm

theorem mem_values_of_mem_drugPredsFor (values : List String) (cands : List PredictionResult)
    (d : String) (hmem : ∀ r ∈ effectRows cands, r.drug = d → r.pred ∈ values) :
    ∀ p ∈ drugPredsFor (effectRows cands) d, p ∈ values := by
  intro p hp
  unfold drugPredsFor at hp
  obtain ⟨r, hr, hrp⟩ := List.mem_map.mp hp
  obtain ⟨hrm, hrd⟩ := List.mem_filter.mp hr
  exact hrp ▸ hmem r hrm (by simpa using hrd)

/-- C1: for every drug in the catalogue's drug list, the antibiogram
value produced by `populateEffects` — reproduced by `saveJSON` — equals
the minimum-index (most severe) prediction among the drug's emitted
effect rows under the catalogue's `values` ordering, and equals the
catalogue's most-susceptible value (the last element of `values`) when
the drug has no effect row; the fold updates the running phenotype only
when the new prediction ranks strictly before the current one. -/
theorem C1_severity_aggregation (values : List String) (cands : List PredictionResult)
    (catDrugs : List String) (d : String)
    (hS : values.getLast? = some "S") (hnd : values.Nodup)
    (hd : d ∈ catDrugs)
    (hmem : ∀ r ∈ effectRows cands, r.drug = d → r.pred ∈ values) :
    (drugPredsFor (effectRows cands) d = [] →
      some (populateEffectsPhenotype values cands d) = values.getLast?) ∧
    (drugPredsFor (effectRows cands) d ≠ [] →
      populateEffectsPhenotype values cands d ∈ drugPredsFor (effectRows cands) d ∧
      ∀ p ∈ drugPredsFor (effectRows cands) d,
        values.indexOf (populateEffectsPhenotype values cands d) ≤ values.indexOf p) ∧
    saveJSONAntibiogram values (effectRows cands) catDrugs d
      = some (populateEffectsPhenotype values cands d) ∧
    (∀ cur pred, ¬ values.indexOf pred < values.indexOf cur →
      updatePhenotype values cur pred = cur) := by
  have hfold := populateEffectsPhenotype_eq_foldl values cands d
  have hvals := mem_values_of_mem_drugPredsFor values cands d hmem
  obtain ⟨hlast, hper⟩ := indexOf_of_getLast_S hS hnd
  refine ⟨?_, ?_, ?_, ?_⟩
  · intro hnil
    rw [hfold, hnil]
    simpa using hS.symm
  · intro hne
    rcases foldl_updatePhenotype_mem values (drugPredsFor (effectRows cands) d) "S" with h | h
    · obtain ⟨p0, hp0⟩ := List.exists_mem_of_ne_nil _ hne
      have hle := (foldl_updatePhenotype_le values (drugPredsFor (effectRows cands) d) "S").2
      have h1 : values.indexOf "S" ≤ values.indexOf p0 := by
        have := hle p0 hp0
        rwa [h] at this
      have h2 : values.indexOf p0 ≤ values.indexOf "S" := (hper p0 (hvals p0 hp0)).1
      have hp0S : p0 = "S" := (hper p0 (hvals p0 hp0)).2 (le_antisymm h2 h1)
      constructor
      · rw [hfold, h, ← hp0S]
        exact hp0
      · intro p hp
        rw [hfold]
        exact hle p hp
    · refine ⟨hfold ▸ h, ?_⟩
      intro p hp
      rw [hfold]
      exact (foldl_updatePhenotype_le values (drugPredsFor (effectRows cands) d) "S").2 p hp
  · unfold saveJSONAntibiogram
    by_cases hc : ((effectRows cands).map (fun r => r.drug)).contains d = true
    · rw [if_pos hc]
      rw [hfold]
      rfl
    · rw [if_neg hc, if_pos (by simpa using hd)]
      have hnil : drugPredsFor (effectRows cands) d = [] := by
        unfold drugPredsFor
        have hfil : (effectRows cands).filter (fun r => r.drug == d) = [] := by
          rw [List.filter_eq_nil_iff]
          intro r hr
          simp only [beq_iff_eq]
          intro hrd
          exact hc (List.elem_iff.mpr (List.mem_map.mpr ⟨r, hr, hrd⟩))
        rw [hfil]
        rfl
      rw [hfold, hnil]
      rfl
  · intro cur pred h
    unfold updatePhenotype
    rw [if_neg h]

/-- Witness for C1 at a concrete candidate list and the catalogue
ordering `RFUS`. -/
theorem C1_severity_aggregation_witness :
    drugPredsFor (effectRows exCandsC1) "d1" ≠ [] ∧
    populateEffectsPhenotype ["R", "F", "U", "S"] exCandsC1 "d1"
      ∈ drugPredsFor (effectRows exCandsC1) "d1" := by
  refine ⟨by decide, ?_⟩
  exact ((C1_severity_aggregation ["R", "F", "U", "S"] exCandsC1 ["d1", "d2"] "d1"
    (by decide) (by decide) (by decide) (by decide)).2.1 (by decide)).1

/-! ## C2 lemmas -/

theorem amp_mem_of_mem_joined {muts : List (String × String)} {t : String}
    (h : t ∈ muts.map (fun gm => gm.1 ++ "@" ++ gm.2)) : '@' ∈ t.data := by
  obtain ⟨gm, _, rfl⟩ := List.mem_map.mp h
  simp only [String.data_append, List.mem_append]
  left
  right
  decide

theorem codeLargeDel_no_amp {m : String} (hm : codeLargeDel m = true) :
    ∃ t ∈ splitOnChar '&' m, '@' ∉ t.data := by
  unfold codeLargeDel at hm
  rw [Bool.or_eq_true] at hm
  rcases hm with h | h
  · have hme : m = "del_1.0" := by simpa using h
    subst hme
    exact ⟨"del_1.0", by decide, by decide⟩
  · rcases hd : m.data with _ | ⟨c1, rest1⟩
    · rw [hd] at h
      exact absurd h (by simp [fracMatch])
    rcases rest1 with _ | ⟨c2, ds⟩
    · rw [hd] at h
      exact absurd h (by simp [fracMatch])
    rw [hd] at h
    simp only [fracMatch, Bool.and_eq_true, beq_iff_eq, List.all_eq_true] at h
    obtain ⟨⟨⟨⟨hc1, hc2⟩, _⟩, _⟩, hds⟩ := h
    subst hc1
    subst hc2
    have hamp : '&' ∉ m.data := by
      rw [hd]
      intro hmem
      rcases List.mem_cons.mp hmem with h1 | h1
      · exact absurd h1 (by decide)
      rcases List.mem_cons.mp h1 with h2 | h2
      · exact absurd h2 (by decide)
      · have := hds '&' h2
        exact absurd this (by decide)
    refine ⟨m, ?_, ?_⟩
    · unfold splitOnChar
      rw [splitListChar_of_not_mem hamp]
      simp
    · rw [hd]
      intro hmem
      rcases List.mem_cons.mp hmem with h1 | h1
      · exact absurd h1 (by decide)
      rcases List.mem_cons.mp h1 with h2 | h2
      · exact absurd h2 (by decide)
      · have := hds '@' h2
        exact absurd this (by decide)

theorem count_map_none_pair (m : String) (l : List String) :
    List.count ((none : Option String), m)
      (l.map (fun mu => ((none : Option String), mu))) = List.count m l := by
  induction l with
  | nil => rfl
  | cons a as ih =>
    by_cases h : a = m
    · simp [List.count_cons, ih, h]
    · simp [List.count_cons, ih, h, Prod.ext_iff]

theorem count_filter_eq {α : Type} [BEq α] [LawfulBEq α] (p : α → Bool) (x : α) (l : List α) :
    List.count x (l.filter p) = if p x = true then List.count x l else 0 := by
  by_cases h : p x = true
  · rw [if_pos h, List.count_filter h]
  · rw [if_neg h, List.count_eq_zero_of_not_mem]
    intro hmem
    exact h (List.mem_filter.mp hmem).2

/-- C2: for every rule in the catalogue's MULTI rule set, `getMutations`
appends exactly one synthetic `(None, rule)` record to the
effect-candidate list iff every `&`-separated term of the rule occurs in
the `gene@mutation` join of the sample's mutation list; rules are tested
independently, against the join of the original list only. -/
theorem C2_multi_mutation_detection (muts : List (String × String)) (catalogue : CatalogueModel)
    (cp : String → Bool) (m : String)
    (hm : m ∈ ((catalogue.rules.filter (fun r => r.mutation_type == "MULTI")).map
      (fun r => r.mutation)).dedup) :
    List.count ((none : Option String), m) (getMutations muts catalogue cp)
      = if (splitOnChar '&' m).all
            (fun t => (muts.map (fun gm => gm.1 ++ "@" ++ gm.2)).contains t) = true
        then 1 else 0 := by
  have hA : ((none : Option String), m)
      ∉ muts.map (fun gm => ((some gm.1 : Option String), gm.2)) := by
    intro h
    obtain ⟨gm, _, he⟩ := List.mem_map.mp h
    exact Option.noConfusion (congrArg Prod.fst he)
  simp only [getMutations]
  rw [count_filter_eq]
  by_cases hcond : ((splitOnChar '&' m).all
      (fun t => (muts.map (fun gm => gm.1 ++ "@" ++ gm.2)).contains t)) = true
  · have hdel : codeLargeDel m = false := by
      cases hcl : codeLargeDel m with
      | false => rfl
      | true =>
        obtain ⟨t, ht, hamp⟩ := codeLargeDel_no_amp hcl
        have hc := List.all_eq_true.mp hcond t ht
        have htj : t ∈ muts.map (fun gm => gm.1 ++ "@" ++ gm.2) := by simpa using hc
        exact absurd (amp_mem_of_mem_joined htj) hamp
    rw [if_pos (by simp [hdel])]
    rw [List.count_append, List.count_eq_zero_of_not_mem hA, count_map_none_pair]
    rw [List.count_filter (p := fun multi => (splitOnChar '&' multi).all
      (fun t => (muts.map (fun gm => gm.1 ++ "@" ++ gm.2)).contains t)) hcond]
    rw [List.count_eq_one_of_mem (List.nodup_dedup _) hm, if_pos hcond]
  · rw [if_neg hcond]
    by_cases hkeep : (!(match ((none : Option String), m).1 with
        | some g => cp g && nucSnpMatch ((none : Option String), m).2
        | none => false)
      && (((catalogue.rules.map (fun r => r.mutation_affects)).contains "GENE")
          || !(codeLargeDel ((none : Option String), m).2))) = true
    · rw [if_pos hkeep, List.count_append, List.count_eq_zero_of_not_mem hA,
        count_map_none_pair]
      have hB : m ∉ ((catalogue.rules.filter (fun r => r.mutation_type == "MULTI")).map
          (fun r => r.mutation)).dedup.filter
            (fun multi => (splitOnChar '&' multi).all
              (fun t => (muts.map (fun gm => gm.1 ++ "@" ++ gm.2)).contains t)) := by
        intro hmem
        exact hcond (List.mem_filter.mp hmem).2
      rw [List.count_eq_zero_of_not_mem hB]
    · rw [if_neg hkeep]

/-- Witness for C2 at a concrete two-term MULTI rule whose terms are
both present. -/
theorem C2_multi_mutation_detection_witness :
    "g1@A1B&g2@C2D" ∈ ((exCatC2.rules.filter (fun r => r.mutation_type == "MULTI")).map
      (fun r => r.mutation)).dedup ∧
    List.count ((none : Option String), "g1@A1B&g2@C2D")
      (getMutations exMutsC2 exCatC2 (fun _ => false)) = 1 := by
  refine ⟨by decide, ?_⟩
  have h := C2_multi_mutation_detection exMutsC2 exCatC2 (fun _ => false)
    "g1@A1B&g2@C2D" (by decide)
  rw [if_pos (by decide)] at h
  exact h

/-- C5: the claim says `getMutations` drops every mutation of the form
`del_` + fractional extent (or `1.0`) when the catalogue has no GENE
rule; the source's comment agrees, but its regex
`del_(1\.0)|(0\.[0-9][0-9]?[0-9]?)` alternates at the top level, so the
fractional large deletion `del_0.5` is *retained* (and a bare `0.5`
would be dropped instead).  Evaluated at the failing input. -/
theorem C5_large_deletion_code_bug :
    specLargeDel "del_0.5" = true ∧
    ((exCatC5.rules.map (fun r => r.mutation_affects)).contains "GENE") = false ∧
    getMutations [("geneA", "del_0.5")] exCatC5 (fun _ => false)
      = [(some "geneA", "del_0.5")] ∧
    codeLargeDel "del_0.5" = false ∧
    codeLargeDel "0.5" = true := by decide

/-- C3 counterexample: gene `gX` carries a variant at coordinate 1 and
lies in the catalogue gene list — hence in catalogue ∪ sample genes, so
the claim selects it when `resistanceGenesOnly` is off — but `getGenes`
intersects with the *sample* genes only and returns the empty set. -/
theorem C3_gene_selector_counterexample :
    (∃ p ∈ exRefC3.stackedRows.flatten, p.1 = "gX" ∧ p.2 ∈ [(1 : Int)]) ∧
    "gX" ∈ (["gX"] ++ exSampleC3.genes) ∧
    getGenes exRefC3 exSampleC3 [1] (some ["gX"]) false = [] := by decide

/-- C3 amended: without a catalogue `getGenes` returns the sample's
genes; with a catalogue it returns the union of variant-bearing genes,
minor-population genes (non-empty names only) and deletion-touched
genes, intersected with the catalogue gene list when
`resistanceGenesOnly` and with the *sample* genes (not catalogue ∪
sample) otherwise. -/
theorem C3_gene_selector_amended (ref : GetGenesRef) (sample : GetGenesSample)
    (diffIdx : List Int) (catGenes : List String) (ro : Bool) (g : String) :
    (getGenes ref sample diffIdx none ro = sample.genes) ∧
    (g ∈ getGenes ref sample diffIdx (some catGenes) ro ↔
      ((∃ p ∈ ref.stackedRows.flatten, p.1 = g ∧ p.2 ∈ diffIdx)
        ∨ (g ≠ "" ∧ ∃ coord ∈ sample.minorCoords,
            ∃ p ∈ ref.stackedRows.flatten, p.1 = g ∧ p.2 = coord)
        ∨ (∃ row ∈ ref.stackedRows,
            ∃ q ∈ row.zip sample.is_deleted, q.1.1 = g ∧ q.2 = true))
      ∧ g ∈ (if ro then catGenes else sample.genes)) := by
  refine ⟨rfl, ?_⟩
  simp only [getGenes]
  rw [List.mem_filter]
  simp only [List.mem_dedup, List.mem_append, List.mem_map, List.mem_filter,
    List.mem_flatMap, Bool.and_eq_true, beq_iff_eq, decide_eq_true_eq,
    Bool.not_eq_true', List.elem_eq_mem]
  constructor
  · rintro ⟨hm, hres⟩
    refine ⟨?_, by simpa using hres⟩
    rcases hm with (⟨p, ⟨hp, hpi⟩, hpg⟩ | hminor) | hdel
    · exact Or.inl ⟨p, hp, hpg, by simpa using hpi⟩
    · obtain ⟨coord, hcoord, ⟨⟨p, ⟨hp, hpc⟩, hpg⟩, hne⟩⟩ := hminor
      exact Or.inr (Or.inl ⟨by simpa using hne, coord, hcoord, p, hp, hpg, hpc⟩)
    · obtain ⟨row, hrow, q, ⟨hq, hq2⟩, hqg⟩ := hdel
      exact Or.inr (Or.inr ⟨row, hrow, q, hq, hqg, hq2⟩)
  · rintro ⟨hm, hres⟩
    refine ⟨?_, by simpa using hres⟩
    rcases hm with ⟨p, hp, hpg, hpi⟩ | ⟨hne, coord, hcoord, p, hp, hpg, hpc⟩ | ⟨row, hrow, q, hq, hqg, hq2⟩
    · exact Or.inl (Or.inl ⟨p, ⟨hp, by simpa using hpi⟩, hpg⟩)
    · exact Or.inl (Or.inr ⟨coord, hcoord, ⟨p, ⟨hp, hpc⟩, hpg⟩, by simpa using hne⟩)
    · exact Or.inr ⟨row, hrow, q, ⟨hq, hq2⟩, hqg⟩

/-- C4 counterexample: in `populateMutations` a row of a protein-coding
gene whose `gene_position` is `None` gets `codes_protein = True`
(source line 341 falls back to the gene flag), so `codes_protein` does
not imply a strictly positive, non-null position. -/
theorem C4_codes_protein_counterexample :
    (populateMutations_codes_protein true [none]).headD false = true ∧
    (none : Option Int).isSome = false := by decide

/-- C4 amended: `codes_protein = true` implies the gene's own coding
flag, and implies `gene_position > 0` whenever the position is non-null
(`populateMutations`) — in `minority_population_mutations` the position
is always an integer and the implication `gene_position > 0` holds
unconditionally. -/
theorem C4_codes_protein_amended :
    (∀ (geneCodes : Bool) (positions : List (Option Int)) (i : Nat) (pos : Option Int) (b : Bool),
      positions.get? i = some pos →
      (populateMutations_codes_protein geneCodes positions).get? i = some b →
      b = true → geneCodes = true ∧ ∀ p, pos = some p → 0 < p) ∧
    (∀ (d : GeneDiffModel) (m : String),
      (buildMinorRow d m).codes_protein = true →
      d.codes_protein = true ∧ 0 < (buildMinorRow d m).gene_position) := by
  constructor
  · intro geneCodes positions i pos b hpos hb htrue
    unfold populateMutations_codes_protein at hb
    rw [List.get?_eq_getElem?, List.getElem?_map] at hb
    rw [List.get?_eq_getElem?] at hpos
    rw [hpos] at hb
    simp only [Option.map_some'] at hb
    have hb' : codesProteinEntry geneCodes pos = b := Option.some_injective _ hb
    subst htrue
    cases pos with
    | none =>
      refine ⟨hb', ?_⟩
      intro p hp
      cases hp
    | some p =>
      simp only [codesProteinEntry, Bool.and_eq_true, decide_eq_true_eq] at hb'
      refine ⟨hb'.1, ?_⟩
      intro q hq
      cases hq
      exact hb'.2
  · intro d m h
    have hf : (buildMinorRow d m).codes_protein
        = (d.codes_protein && decide (0 < (buildMinorRow d m).gene_position)) := by
      simp only [buildMinorRow]
      split
      · split <;> rfl
      · split <;> rfl
    rw [hf] at h
    simp only [Bool.and_eq_true, decide_eq_true_eq] at h
    exact ⟨h.1, h.2⟩

/-- Witness for C4's amended statement at a concrete positive coding
position. -/
theorem C4_codes_protein_witness :
    (populateMutations_codes_protein true [some (2 : Int)]).get? 0 = some true ∧
    (true = true ∧ ∀ p : Int, some (2 : Int) = some p → 0 < p) := by
  refine ⟨by decide, ?_⟩
  exact C4_codes_protein_amended.1 true [some 2] 0 (some 2) true (by decide) (by decide) rfl

theorem csvDropRow_eq_true_iff (r : CsvMutRow) :
    csvDropRow r = true ↔
      (r.codes_protein = true ∧ r.ref.isSome = true ∧ r.alt.isSome = true
        ∧ (r.ref.getD "").length = 1) := by
  unfold csvDropRow
  simp [Bool.and_eq_true, and_assoc]

/-- C6 counterexample: a protein-coding row with a one-base `ref` but a
three-base `alt`.  The claim ("ref and alt ... each exactly one base
long") keeps it, but the code's filter checks only `len(ref) == 1` and
drops it from the saved CSV. -/
theorem C6_csv_filter_counterexample :
    csvDropRow exRowC6 = true ∧
    (exRowC6.alt.getD "").length ≠ 1 ∧
    exRowC6 ∉ (populateMutationsCsvAndReturn [exRowC6]).1 := by decide

/-- C6 amended: the table returned to callers is the input unchanged,
and a row is dropped from the saved CSV iff it `codes_protein`, its
`ref` is non-null of length exactly one, and its `alt` is non-null —
the alt's length is not consulted. -/
theorem C6_csv_filter_amended (rows : List CsvMutRow) (r : CsvMutRow) :
    (populateMutationsCsvAndReturn rows).2 = rows ∧
    (r ∈ (populateMutationsCsvAndReturn rows).1 ↔
      r ∈ rows ∧ ¬(r.codes_protein = true ∧ r.ref.isSome = true ∧ r.alt.isSome = true
        ∧ (r.ref.getD "").length = 1)) := by
  refine ⟨rfl, ?_⟩
  show r ∈ rows.filter (fun x => !(csvDropRow x)) ↔ _
  rw [List.mem_filter]
  constructor
  · rintro ⟨hr, hd⟩
    refine ⟨hr, fun hc => ?_⟩
    rw [(csvDropRow_eq_true_iff r).mpr hc] at hd
    exact absurd hd (by decide)
  · rintro ⟨hr, hnc⟩
    refine ⟨hr, ?_⟩
    cases hdr : csvDropRow r with
    | false => simp
    | true => exact absurd ((csvDropRow_eq_true_iff r).mp hdr) hnc

theorem buildMinorRow_gene (d : GeneDiffModel) (m : String) :
    (buildMinorRow d m).gene = d.gene1Name := by
  simp only [buildMinorRow]
  split
  · split <;> rfl
  · split <;> rfl

theorem minority_population_mutations_rows (diffs : List GeneDiffModel) :
    (minority_population_mutations diffs).1
      = diffs.flatMap (fun d2 => match d2.minorResult with
          | .ok muts => muts.map (buildMinorRow d2)
          | .error _ => []) := by
  induction diffs with
  | nil => rfl
  | cons d2 rest ih =>
    simp only [minority_population_mutations, List.flatMap_cons]
    cases hm : d2.minorResult with
    | error e2 => simpa using ih
    | ok muts => simpa using ih

theorem minority_population_mutations_errs (diffs : List GeneDiffModel) :
    (minority_population_mutations diffs).2
      = diffs.filterMap (fun d2 => match d2.minorResult with
          | .error e2 => some (d2.gene2Name, e2)
          | .ok _ => none) := by
  induction diffs with
  | nil => rfl
  | cons d2 rest ih =>
    simp only [minority_population_mutations, List.filterMap_cons]
    cases hm : d2.minorResult with
    | error e2 => simpa using ih
    | ok muts => simpa using ih

/-- C8: a gene difference whose `minor_populations` call raises is
recorded in the error map under its gene name with the raised payload,
contributes no row to the returned table, and the remaining gene
differences are still processed (the table and error map are exactly the
concatenation over all processed differences — the exception never
propagates). -/
theorem C8_minor_mutation_errors (diffs : List GeneDiffModel) (d : GeneDiffModel) (e : String)
    (hd : d ∈ diffs) (he : d.minorResult = .error e)
    (huniq : ∀ d2 ∈ diffs, d2.gene1Name = d.gene1Name → d2 = d) :
    ((d.gene2Name, e) ∈ (minority_population_mutations diffs).2) ∧
    (∀ row ∈ (minority_population_mutations diffs).1, row.gene ≠ d.gene1Name) ∧
    (minority_population_mutations diffs).1
      = diffs.flatMap (fun d2 => match d2.minorResult with
          | .ok muts => muts.map (buildMinorRow d2)
          | .error _ => []) ∧
    (minority_population_mutations diffs).2
      = diffs.filterMap (fun d2 => match d2.minorResult with
          | .error e2 => some (d2.gene2Name, e2)
          | .ok _ => none) := by
  refine ⟨?_, ?_, minority_population_mutations_rows diffs,
    minority_population_mutations_errs diffs⟩
  · rw [minority_population_mutations_errs]
    exact List.mem_filterMap.mpr ⟨d, hd, by rw [he]⟩
  · rw [minority_population_mutations_rows]
    intro row hrow
    obtain ⟨d2, hd2, hrow2⟩ := List.mem_flatMap.mp hrow
    cases hm2 : d2.minorResult with
    | error e2 =>
      rw [hm2] at hrow2
      simp at hrow2
    | ok muts =>
      rw [hm2] at hrow2
      obtain ⟨m0, _, hb⟩ := List.mem_map.mp hrow2
      intro hg
      have hname : d2.gene1Name = d.gene1Name := by
        rw [← hg, ← hb, buildMinorRow_gene]
      have hdd : d2 = d := huniq d2 hd2 hname
      rw [hdd, he] at hm2
      cases hm2

/-- Witness for C8: one succeeding and one failing gene difference. -/
theorem C8_minor_mutation_errors_witness :
    ("gBad", "Traceback: boom") ∈ (minority_population_mutations [exDiffOkC8, exDiffErrC8]).2 ∧
    ∀ row ∈ (minority_population_mutations [exDiffOkC8, exDiffErrC8]).1, row.gene ≠ "gBad" := by
  have h := C8_minor_mutation_errors [exDiffOkC8, exDiffErrC8] exDiffErrC8 "Traceback: boom"
    (List.mem_cons_of_mem _ (List.mem_cons_self _ _)) rfl
    (by
      intro d2 hd2 hname
      rcases List.mem_cons.mp hd2 with h1 | h1
      · rw [h1] at hname
        exact absurd hname (by decide)
      rcases List.mem_cons.mp h1 with h2 | h2
      · exact h2
      · simp at h2)
  exact ⟨h.1, fun row hrow => h.2.1 row hrow⟩

/-! ## C9 lemmas -/

theorem snpScanChars_ok_false (c : Rat) (ev : Rat) (pos idx : Int) (mc : String)
    (l : List (Nat × Char))
    (hnm : ∀ q ∈ l, ¬(String.mk [q.2] = mc ∧ idx = pos + (q.1 : Int) ∧ ev = c)) :
    snpScanChars (some c) ev pos idx mc l = .ok false := by
  induction l with
  | nil => rfl
  | cons q rest ih =>
    obtain ⟨i, a⟩ := q
    simp only [snpScanChars]
    by_cases hmatch : String.mk [a] = mc ∧ idx = pos + (i : Int)
    · rw [if_pos hmatch]
      have hne : ¬(ev = c) := fun hec =>
        hnm (i, a) (List.mem_cons_self _ _) ⟨hmatch.1, hmatch.2, hec⟩
      rw [if_neg hne]
      exact ih (fun q hq => hnm q (List.mem_cons_of_mem _ hq))
    · rw [if_neg hmatch]
      exact ih (fun q hq => hnm q (List.mem_cons_of_mem _ hq))

theorem snpScanAlts_ok_none (cov : List Rat) (ev : Rat) (pos idx : Int) (mc : String)
    (k : Nat) (alts : List String)
    (hwf : ∀ j, j < alts.length → ∃ c, cov.get? (k + j + 1) = some c)
    (hnm : ∀ j alt, alts.get? j = some alt → ∀ q ∈ alt.data.enum, ∀ c : Rat,
      cov.get? (k + j + 1) = some c →
      ¬(String.mk [q.2] = mc ∧ idx = pos + (q.1 : Int) ∧ ev = c)) :
    snpScanAlts cov ev pos idx mc k alts = .ok none := by
  induction alts generalizing k with
  | nil => rfl
  | cons alt rest ih =>
    obtain ⟨c, hc⟩ := hwf 0 (by simp)
    have hc1 : cov.get? (k + 1) = some c := by simpa using hc
    simp only [snpScanAlts]
    rw [hc1]
    rw [snpScanChars_ok_false c ev pos idx mc _
      (fun q hq => hnm 0 alt (by simp) q hq c (by simpa using hc1))]
    refine ih (k + 1) ?_ ?_
    · intro j hj
      have h2 := hwf (j + 1) (by simpa using Nat.succ_lt_succ hj)
      have he : k + (j + 1) + 1 = k + 1 + j + 1 := by omega
      rwa [he] at h2
    · intro j alt2 hj q hq c2 hc2
      have he : k + 1 + j + 1 = k + (j + 1) + 1 := by omega
      rw [he] at hc2
      exact hnm (j + 1) alt2 (by simpa using hj) q hq c2 hc2

theorem indelScanCalls_ok_false (c : Rat) (ev : Rat) (pos idx : Int) (t bases : String)
    (l : List (Int × String × String))
    (hnm : ∀ call ∈ l, ¬(pos + call.1 = idx ∧ t = call.2.1 ∧ bases = call.2.2 ∧ ev = c)) :
    indelScanCalls (some c) ev pos idx t bases l = .ok false := by
  induction l with
  | nil => rfl
  | cons call rest ih =>
    obtain ⟨offset, ty, b⟩ := call
    simp only [indelScanCalls]
    by_cases hmatch : pos + offset = idx ∧ t = ty ∧ bases = b
    · rw [if_pos hmatch]
      have hne : ¬(ev = c) := fun hec =>
        hnm (offset, ty, b) (List.mem_cons_self _ _) ⟨hmatch.1, hmatch.2.1, hmatch.2.2, hec⟩
      rw [if_neg hne]
      exact ih (fun q hq => hnm q (List.mem_cons_of_mem _ hq))
    · rw [if_neg hmatch]
      exact ih (fun q hq => hnm q (List.mem_cons_of_mem _ hq))

theorem indelScanAlts_ok_none (simplify : String → String → List (Int × String × String))
    (ref : String) (cov : List Rat) (ev : Rat) (pos idx : Int) (t bases : String)
    (k : Nat) (alts : List String)
    (hwf : ∀ j, j < alts.length → ∃ c, cov.get? (k + j + 1) = some c)
    (hnm : ∀ j alt, alts.get? j = some alt → ∀ call ∈ simplify ref alt, ∀ c : Rat,
      cov.get? (k + j + 1) = some c →
      ¬(pos + call.1 = idx ∧ t = call.2.1 ∧ bases = call.2.2 ∧ ev = c)) :
    indelScanAlts simplify ref cov ev pos idx t bases k alts = .ok none := by
  induction alts generalizing k with
  | nil => rfl
  | cons alt rest ih =>
    obtain ⟨c, hc⟩ := hwf 0 (by simp)
    have hc1 : cov.get? (k + 1) = some c := by simpa using hc
    simp only [indelScanAlts]
    rw [hc1]
    rw [indelScanCalls_ok_false c ev pos idx t bases _
      (fun call hcall => hnm 0 alt (by simp) call hcall c (by simpa using hc1))]
    refine ih (k + 1) ?_ ?_
    · intro j hj
      have h2 := hwf (j + 1) (by simpa using Nat.succ_lt_succ hj)
      have he : k + (j + 1) + 1 = k + 1 + j + 1 := by omega
      rwa [he] at h2
    · intro j alt2 hj call hcall c2 hc2
      have he : k + 1 + j + 1 = k + (j + 1) + 1 := by omega
      rw [he] at hc2
      exact hnm (j + 1) alt2 (by simpa using hj) call hcall c2 hc2

/-- C9: when no ALT of the (present, coverage-complete) VCF record
matches a non-wildtype call's position, base/type content and evidence
value, `vcf_idx` resolution returns `None` together with the warning
flag and raises no exception — for the SNP scan and the indel scan
alike. -/
theorem C9_unresolved_vcf_idx :
    (∀ (v : VcfRecord) (cov : List Rat) (ev : Rat) (idx : Int) (r a : String),
      covFRS v ev = .ok cov →
      cov.length = v.alts.length + 1 →
      r ≠ a →
      (∀ p ∈ v.alts.enum, ∀ q ∈ p.2.data.enum, ∀ c ∈ cov.get? (p.1 + 1),
        ¬(String.mk [q.2] = a ∧ idx = v.pos + (q.1 : Int) ∧ ev = c)) →
      vcfIdxSnp (some v) ev idx r a = .ok (none, true)) ∧
    (∀ (simplify : String → String → List (Int × String × String)) (v : VcfRecord)
      (cov : List Rat) (ev : Rat) (idx : Int) (t bases : String),
      covFRS v ev = .ok cov →
      cov.length = v.alts.length + 1 →
      (∀ p ∈ v.alts.enum, ∀ call ∈ simplify v.ref p.2, ∀ c ∈ cov.get? (p.1 + 1),
        ¬(v.pos + call.1 = idx ∧ t = call.2.1 ∧ bases = call.2.2 ∧ ev = c)) →
      vcfIdxIndel simplify (some v) ev idx t bases = .ok (none, true)) := by
  constructor
  · intro v cov ev idx r a hcov hlen hra hnm
    have hscan : snpScanAlts cov ev v.pos idx a 0 v.alts = .ok none := by
      refine snpScanAlts_ok_none cov ev v.pos idx a 0 v.alts ?_ ?_
      · intro j hj
        have hb : 0 + j + 1 < cov.length := by omega
        exact ⟨cov.get ⟨0 + j + 1, hb⟩, List.get?_eq_get hb⟩
      · intro j alt hget q hq c hc
        exact hnm (j, alt) (List.mem_enum_iff_get?.mpr hget) q hq c
          (Option.mem_def.mpr (by simpa using hc))
    unfold vcfIdxSnp
    rw [if_neg hra]
    simp only [hcov, hscan]
  · intro simplify v cov ev idx t bases hcov hlen hnm
    have hscan : indelScanAlts simplify v.ref cov ev v.pos idx t bases 0 v.alts
        = .ok none := by
      refine indelScanAlts_ok_none simplify v.ref cov ev v.pos idx t bases 0 v.alts ?_ ?_
      · intro j hj
        have hb : 0 + j + 1 < cov.length := by omega
        exact ⟨cov.get ⟨0 + j + 1, hb⟩, List.get?_eq_get hb⟩
      · intro j alt hget call hcall c hc
        exact hnm (j, alt) (List.mem_enum_iff_get?.mpr hget) call hcall c
          (Option.mem_def.mpr (by simpa using hc))
    unfold vcfIdxIndel
    simp only [hcov, hscan]

/-- Witness for C9 at a concrete non-matching SNP call. -/
theorem C9_unresolved_vcf_idx_witness :
    covFRS exVcfC9 2 = .ok [(3 : Rat), 4] ∧
    vcfIdxSnp (some exVcfC9) 2 99 "a" "c" = .ok (none, true) := by
  refine ⟨rfl, ?_⟩
  exact C9_unresolved_vcf_idx.1 exVcfC9 [3, 4] 2 99 "a" "c" rfl (by decide)
    (by decide) (by decide)

/-! ## C10 and C7 lemmas -/

theorem vcfIdxSnp_wildtype (vcfOpt : Option VcfRecord) (ev : Rat) (idx : Int) (s : String) :
    vcfIdxSnp vcfOpt ev idx s s = .ok (some 0, false) := by
  unfold vcfIdxSnp
  rw [if_pos rfl]

theorem snpScanAlts_some_ge (cov : List Rat) (ev : Rat) (pos idx : Int) (mc : String)
    (alts : List String) (k j : Nat)
    (h : snpScanAlts cov ev pos idx mc k alts = .ok (some j)) : k + 1 ≤ j := by
  induction alts generalizing k with
  | nil => simp [snpScanAlts] at h
  | cons alt rest ih =>
    simp only [snpScanAlts] at h
    cases hsc : snpScanChars (cov.get? (k + 1)) ev pos idx mc alt.data.enum with
    | error e =>
      rw [hsc] at h
      cases h
    | ok found =>
      rw [hsc] at h
      cases found with
      | true =>
        have h2 : some (k + 1) = some j := by injection h
        have h3 : k + 1 = j := Option.some_injective _ h2
        omega
      | false =>
        have h2 := ih (k + 1) h
        omega

theorem fanOut_vcf_idx (env : MinorityEnv) (b : BaseRow) :
    ∀ r ∈ fanOut env b, r.vcf_idx = b.vcf_idx := by
  intro r hr
  simp only [fanOut] at hr
  by_cases h1 : 1 < (geneNamesAt env b.idx).length
  · rw [if_pos h1] at hr
    obtain ⟨g, _, rfl⟩ := List.mem_map.mp hr
    rfl
  · rw [if_neg h1] at hr
    by_cases h2 : (geneNamesAt env b.idx).headD "" ≠ ""
    · rw [if_pos h2] at hr
      rw [List.mem_singleton.mp hr]
      rfl
    · rw [if_neg h2] at hr
      rw [List.mem_singleton.mp hr]
      rfl

theorem fanOut_gene_none (env : MinorityEnv) (b : BaseRow) :
    ∀ r ∈ fanOut env b, r.gene = none →
      r.gene_position = none ∧ r.codon_idx = none := by
  intro r hr hg
  simp only [fanOut] at hr
  by_cases h1 : 1 < (geneNamesAt env b.idx).length
  · rw [if_pos h1] at hr
    obtain ⟨g, _, rfl⟩ := List.mem_map.mp hr
    simp [annotateRow] at hg
  · rw [if_neg h1] at hr
    by_cases h2 : (geneNamesAt env b.idx).headD "" ≠ ""
    · rw [if_pos h2] at hr
      rw [List.mem_singleton.mp hr] at hg
      simp [annotateRow] at hg
    · rw [if_neg h2] at hr
      rw [List.mem_singleton.mp hr]
      exact ⟨rfl, rfl⟩

theorem length_le_one_of_nodup_all_eq {l : List String} (hnd : l.Nodup)
    (h : ∀ x ∈ l, x = "") : ¬ 1 < l.length := by
  cases l with
  | nil => simp
  | cons x xs =>
    cases xs with
    | nil => simp
    | cons y ys =>
      intro _
      have hx := h x (List.mem_cons_self _ _)
      have hy := h y (List.mem_cons_of_mem _ (List.mem_cons_self _ _))
      rw [List.nodup_cons] at hnd
      exact hnd.1 (by rw [hx, ← hy]; exact List.mem_cons_self _ _)

theorem geneNamesAt_nodup (env : MinorityEnv) (idx : Int) : (geneNamesAt env idx).Nodup := by
  unfold geneNamesAt
  exact (sortStrings_perm _).nodup_iff.mpr (List.nodup_dedup _)

/-- C10: a minor-population SNP call whose reference base equals its
alternate base resolves to the sentinel `vcf_idx = 0` immediately —
independently of the VCF record, even an absent one, so no ALT-list
resolution is attempted — while genuine ALT resolution only ever
returns 1-based indices; every row the call produces carries
`vcf_idx = 0`, which is distinct from the null used for unresolved
evidence. -/
theorem C10_wildtype_vcf_idx :
    (∀ (vcfOpt : Option VcfRecord) (ev : Rat) (idx : Int) (s : String),
      vcfIdxSnp vcfOpt ev idx s s = .ok (some 0, false)) ∧
    (∀ (cov : List Rat) (ev : Rat) (pos idx : Int) (mc : String)
      (alts : List String) (j : Nat),
      snpScanAlts cov ev pos idx mc 0 alts = .ok (some j) → 1 ≤ j) ∧
    (∀ (env : MinorityEnv) (genes : Option (List String)) (raw : String)
      (rows : List VariantRow),
      strContains (garcPart raw) '>' = true →
      snpRef (garcPart raw) = snpAlt (garcPart raw) →
      processCall env genes raw = .ok rows →
      ∀ r ∈ rows, r.vcf_idx = some 0) := by
  refine ⟨vcfIdxSnp_wildtype, ?_, ?_⟩
  · intro cov ev pos idx mc alts j h
    have h2 := snpScanAlts_some_ge cov ev pos idx mc alts 0 j h
    omega
  · intro env genes raw rows hgt heq hp r hr
    unfold processCall at hp
    cases hb : buildBase env genes raw with
    | error e =>
      rw [hb] at hp
      cases hp
    | ok ob =>
      rw [hb] at hp
      cases ob with
      | none =>
        have h2 : ([] : List VariantRow) = rows := by injection hp
        rw [← h2] at hr
        simp at hr
      | some b =>
        have h2 : fanOut env b = rows := by injection hp
        have hvidx : b.vcf_idx = some 0 := by
          simp only [buildBase] at hb
          rw [if_pos hgt] at hb
          by_cases hskip :
              ((indicesWeCareAbout env genes).contains (snpIdx (garcPart raw))) = true
          · rw [if_pos hskip] at hb
            rw [heq, vcfIdxSnp_wildtype] at hb
            injection hb with h3
            injection h3 with h4
            rw [← h4]
          · rw [if_neg hskip] at hb
            simp at hb
        rw [← h2] at hr
        exact (fanOut_vcf_idx env b r hr).trans hvidx

/-- Witness for C10: a wildtype call `7a>a:0.5` processed in an
environment whose VCF evidence lookup is empty. -/
theorem C10_wildtype_vcf_idx_witness :
    strContains (garcPart "7a>a:0.5") '>' = true ∧
    snpRef (garcPart "7a>a:0.5") = snpAlt (garcPart "7a>a:0.5") ∧
    ∃ rows, processCall exEnvC10 none "7a>a:0.5" = .ok rows ∧
      ∀ r ∈ rows, r.vcf_idx = some 0 := by
  refine ⟨by decide, by decide, ⟨_, rfl, ?_⟩⟩
  exact C10_wildtype_vcf_idx.2.2 exEnvC10 none "7a>a:0.5" _ (by decide) (by decide) rfl

/-- C7: the gene fan-out of one processed minor-population call — no
overlapping gene gives exactly one row with null gene, gene_position and
codon_idx; one overlapping gene gives exactly one annotated row; several
overlapping genes give exactly one row per gene with the call's shared
fields (variant, nucleotide_index, indel fields, vcf_evidence, vcf_idx)
repeated verbatim; and in every row of the full variants table a null
gene forces null gene_position and codon_idx. -/
theorem C7_minor_variant_fanout :
    (∀ (env : MinorityEnv) (b : BaseRow),
      ((geneNamesAt env b.idx).filter (fun g => !(g == "")) = [] →
        fanOut env b = [intergenicRow b] ∧ (intergenicRow b).gene = none ∧
        (intergenicRow b).gene_position = none ∧ (intergenicRow b).codon_idx = none) ∧
      (∀ g, (geneNamesAt env b.idx).filter (fun g => !(g == "")) = [g] →
        fanOut env b = [annotateRow env b g] ∧ (annotateRow env b g).gene = some g) ∧
      (1 < ((geneNamesAt env b.idx).filter (fun g => !(g == ""))).length →
        (fanOut env b).map (fun r => r.gene)
          = ((geneNamesAt env b.idx).filter (fun g => !(g == ""))).map some ∧
        ∀ r ∈ fanOut env b, ∀ r2 ∈ fanOut env b,
          r.variant = r2.variant ∧ r.nucleotide_index = r2.nucleotide_index ∧
          r.indel_length = r2.indel_length ∧ r.indel_nucleotides = r2.indel_nucleotides ∧
          r.vcf_evidence = r2.vcf_evidence ∧ r.vcf_idx = r2.vcf_idx)) ∧
    (∀ (env : MinorityEnv) (genes : Option (List String)) (calls : List String)
      (rows : List VariantRow),
      minority_population_variants env genes calls = .ok rows →
      ∀ r ∈ rows, r.gene = none → r.gene_position = none ∧ r.codon_idx = none) := by
  constructor
  · intro env b
    refine ⟨?_, ?_, ?_⟩
    · intro hreal
      have hall : ∀ x ∈ geneNamesAt env b.idx, x = "" := by
        intro x hx
        by_contra hne
        have hmem : x ∈ (geneNamesAt env b.idx).filter (fun g => !(g == "")) :=
          List.mem_filter.mpr ⟨hx, by simpa using hne⟩
        rw [hreal] at hmem
        simp at hmem
      have hlen := length_le_one_of_nodup_all_eq (geneNamesAt_nodup env b.idx) hall
      refine ⟨?_, rfl, rfl, rfl⟩
      simp only [fanOut]
      rw [if_neg hlen]
      have hhead : (geneNamesAt env b.idx).headD "" = "" := by
        cases hgs : geneNamesAt env b.idx with
        | nil => rfl
        | cons x xs => simpa using hall x (by rw [hgs]; exact List.mem_cons_self _ _)
      rw [if_neg (fun hc => hc hhead)]
    · intro g hreal
      refine ⟨?_, rfl⟩
      simp only [fanOut]
      rcases hgs : geneNamesAt env b.idx with _ | ⟨x, xs⟩
      · rw [hgs] at hreal
        simp at hreal
      rcases xs with _ | ⟨y, ys⟩
      · rw [hgs] at hreal
        rw [List.filter_cons] at hreal
        by_cases hx : (!(x == "")) = true
        · rw [if_pos hx] at hreal
          simp only [List.filter_nil] at hreal
          have hxg : x = g := by simpa using hreal
          rw [if_neg (by simp)]
          have hxne : x ≠ "" := by simpa using hx
          rw [show ([x] : List String).headD "" = x from rfl, if_pos hxne, hxg]
        · rw [if_neg hx] at hreal
          simp at hreal
      · rw [if_pos (by simp only [List.length_cons]; omega)]
        rw [hgs] at hreal
        rw [hreal]
        rfl
    · intro hlen2
      have hlen : 1 < (geneNamesAt env b.idx).length :=
        lt_of_lt_of_le hlen2 (List.length_filter_le _ _)
      constructor
      · simp only [fanOut]
        rw [if_pos hlen, List.map_map]
        rfl
      · intro r hr r2 hr2
        simp only [fanOut] at hr hr2
        rw [if_pos hlen] at hr hr2
        obtain ⟨g1, _, rfl⟩ := List.mem_map.mp hr
        obtain ⟨g2, _, rfl⟩ := List.mem_map.mp hr2
        exact ⟨rfl, rfl, rfl, rfl, rfl, rfl⟩
  · intro env genes calls
    induction calls with
    | nil =>
      intro rows hp r hr hg
      have h2 : ([] : List VariantRow) = rows := by injection hp
      rw [← h2] at hr
      simp at hr
    | cons raw rest ih =>
      intro rows hp r hr hg
      unfold minority_population_variants at hp
      cases hpc : processCall env genes raw with
      | error e =>
        rw [hpc] at hp
        cases hp
      | ok rs =>
        rw [hpc] at hp
        cases hrest : minority_population_variants env genes rest with
        | error e =>
          rw [hrest] at hp
          cases hp
        | ok rest2 =>
          rw [hrest] at hp
          have h2 : rs ++ rest2 = rows := by injection hp
          rw [← h2] at hr
          rcases List.mem_append.mp hr with h | h
          · unfold processCall at hpc
            cases hb : buildBase env genes raw with
            | error e =>
              rw [hb] at hpc
              cases hpc
            | ok ob =>
              rw [hb] at hpc
              cases ob with
              | none =>
                have h3 : ([] : List VariantRow) = rs := by injection hpc
                rw [← h3] at h
                simp at h
              | some b =>
                have h3 : fanOut env b = rs := by injection hpc
                rw [← h3] at h
                exact fanOut_gene_none env b r h hg
          · exact ih rest2 hrest r h hg

/-- Witness for C7 at a call whose coordinate is covered by two genes. -/
theorem C7_minor_variant_fanout_witness :
    1 < ((geneNamesAt exEnvC7 exBaseC7.idx).filter (fun g => !(g == ""))).length ∧
    (fanOut exEnvC7 exBaseC7).map (fun r => r.gene)
      = ((geneNamesAt exEnvC7 exBaseC7.idx).filter (fun g => !(g == ""))).map some := by
  refine ⟨by decide, ?_⟩
  exact ((C7_minor_variant_fanout.1 exEnvC7 exBaseC7).2.2 (by decide)).1
